import Mathlib

/-!
Formal model of the sendmer transfer orchestrator.

This file gives a shallow embedding, in Lean, of the pure logic of the
sendmer repository and proves the specified properties about it.
Rust strings are modelled as lists of characters (UTF-8 byte order on
valid strings coincides with code-point order, so `List Char` with its
lexicographic order is order-faithful to Rust `String::cmp`), file
contents as lists of bytes, filesystem paths as lists of components,
and the content-addressed blob store is modelled with a perfect hash:
a blob's hash is identified with its byte content (hash equality iff
content equality).  Fallible Rust functions returning `anyhow::Result`
become `Except`-valued functions.

Source locations are cited next to each definition.
-/

namespace Sendmer

/-- Rust `str` / `String` modelled as a list of characters. -/
abbrev Str := List Char

/-- File contents modelled as a list of bytes. -/
abbrev Content := List Nat

/-- A filesystem path, modelled as its list of components. -/
abbrev FsPath := List Str

/-- Convenience: the character list of a Lean string literal. -/
def mkStr (s : String) : Str := s.data

deriving instance DecidableEq for Except

/-- Error raised by the path validator (`anyhow` errors in the source,
distinguished here by bail site). -/
inductive PathError
  | invalidComponent
deriving DecidableEq

/-- One component of a Rust `std::path::Path`, as produced by
`Path::components()` (src/src/core/send.rs line 377: `Component::Normal`,
`Component::RootDir`, and the catch-all for `CurDir` / `ParentDir` /
`Prefix`).  `Normal` components carry their text; the `to_str` failure
branch for non-UTF-8 components is unrepresentable here because our
strings are already sequences of characters. -/
inductive PathComponent
  | rootDir
  | curDir
  | parentDir
  | normal (s : Str)
deriving DecidableEq

/-- The component-collecting pass of `canonicalized_path_to_string`
(src/src/core/send.rs lines 370-401 and identically src/src/common.rs
lines 88-119): `Normal` components must contain neither `/` nor `\`,
`RootDir` is rejected when the path must be relative and otherwise
records a leading slash, and every other component kind is rejected.
Returns (saw-root flag, collected components). -/
def collectParts (mustBeRelative : Bool) : List PathComponent → Except PathError (Bool × List Str)
  | [] => Except.ok (false, [])
  | PathComponent.normal s :: rest =>
      if !(s.contains '/') && !(s.contains '\\') then
        match collectParts mustBeRelative rest with
        | Except.ok (r, ps) => Except.ok (r, s :: ps)
        | Except.error e => Except.error e
      else Except.error PathError.invalidComponent
  | PathComponent.rootDir :: rest =>
      if mustBeRelative then Except.error PathError.invalidComponent
      else
        match collectParts mustBeRelative rest with
        | Except.ok (_, ps) => Except.ok (true, ps)
        | Except.error e => Except.error e
  | _ :: _ => Except.error PathError.invalidComponent

/-- Sender-side name builder `canonicalized_path_to_string`
(src/src/core/send.rs lines 370-405, src/src/common.rs lines 88-123):
validate all components, then join them with `/`, prefixed with `/`
when a root component was allowed and seen. -/
def canonicalized_path_to_string (parts : List PathComponent) (mustBeRelative : Bool) :
    Except PathError Str :=
  match collectParts mustBeRelative parts with
  | Except.ok (sawRoot, ps) => Except.ok ((if sawRoot then ['/'] else []) ++ ['/'].intercalate ps)
  | Except.error e => Except.error e

/-- Receiver-side component check `validate_path_component`
(src/src/core/receive.rs lines 414-420, identical copy in
src/src/common.rs lines 72-78): rejects a component iff it contains
the separator `/`. -/
def validate_path_component (component : Str) : Except PathError Unit :=
  if component.contains '/' then Except.error PathError.invalidComponent else Except.ok ()

/-- The component loop of `get_export_path`: validate each part and push
it onto the path (src/src/core/receive.rs lines 260-263). -/
def pushParts (path : FsPath) : List Str → Except PathError FsPath
  | [] => Except.ok path
  | part :: rest =>
      match validate_path_component part with
      | Except.ok _ => pushParts (path ++ [part]) rest
      | Except.error e => Except.error e

/-- Receiver-side target path builder `get_export_path`
(src/src/core/receive.rs lines 257-265, identical copy in
src/src/common.rs lines 234-242): split the collection entry name on
`/` and push each validated part onto the output root. -/
def get_export_path (root : FsPath) (name : Str) : Except PathError FsPath :=
  pushParts root (List.splitOn '/' name)

/-- A regular file of a directory tree: its path relative to the walk
root (a nonempty list of components) and its byte content. -/
structure FsFile where
  path : FsPath
  data : Content
deriving DecidableEq

/-- The collection entry name of a relative component path: components
joined with `/` (this is what `canonicalized_path_to_string` produces
for a valid relative path). -/
def joinName (p : FsPath) : Str := ['/'].intercalate p

/-- The `data_sources` pass of `import` (src/src/core/send.rs lines
189-205): every regular file under the walk root yields a pair of its
validated collection name and its content.  A failing validation of any
file aborts the whole import. -/
def importDataSources : List FsFile → Except PathError (List (Str × Content))
  | [] => Except.ok []
  | f :: rest =>
      match canonicalized_path_to_string (f.path.map PathComponent.normal) true with
      | Except.ok name =>
          match importDataSources rest with
          | Except.ok ds => Except.ok ((name, f.data) :: ds)
          | Except.error e => Except.error e
      | Except.error e => Except.error e

/-- The comparison used by `names_and_tags.sort_by(|(a,..),(b,..)| a.cmp(b))`
(src/src/core/send.rs line 266): byte-lexicographic order on names
(for valid UTF-8, byte order and code-point order agree). -/
def nameLe (a b : Str × Content) : Prop := a.1 ≤ b.1

instance instDecNameLe : DecidableRel nameLe :=
  fun a b => inferInstanceAs (Decidable (a.1 ≤ b.1))

instance instTotalNameLe : IsTotal (Str × Content) nameLe :=
  IsTotal.mk (fun a b => le_total a.1 b.1)

instance instTransNameLe : IsTrans (Str × Content) nameLe :=
  IsTrans.mk (fun _ _ _ h1 h2 => le_trans h1 h2)

/-- Sorting of the concurrently-completed import results by name before
the `Collection` is assembled (src/src/core/send.rs lines 266-274;
Rust's `sort_by` is a stable comparison sort, modelled by a stable
structural sort by the same order).  Worker completion order is the
order of the input list; the resulting collection is the name-sorted
list of (name, blob) pairs, a blob being identified with its content
under the perfect-hash store model. -/
def buildCollection (completed : List (Str × Content)) : List (Str × Content) :=
  completed.insertionSort nameLe

/-- Filesystem occupancy test modelling `target.exists()`
(src/src/core/receive.rs line 170): a path exists in a set of regular
files iff it is one of the files or an ancestor directory of one. -/
def pathExists (fs : List FsFile) (target : FsPath) : Bool :=
  fs.any (fun f => decide (f.path = target) || decide (target <+: f.path))

/-- Errors of the export loop, distinguished by bail site
(src/src/core/receive.rs lines 169-171): a name component failing
validation, or a target that already exists. -/
inductive ExportError
  | invalidComponent
  | conflict (target : FsPath)
deriving DecidableEq

/-- The export loop `export` (src/src/core/receive.rs lines 167-199):
for each collection entry in order, build the target path, bail out
with a conflict if the target already exists, otherwise stream the blob
to the target (the storage engine's export stream is the trusted
collaborator and is modelled as writing the bytes).  Returns the
operation result together with the final filesystem state. -/
def exportCollection (collection : List (Str × Content)) (root : FsPath) (fs : List FsFile) :
    Except ExportError Unit × List FsFile :=
  match collection with
  | [] => (Except.ok (), fs)
  | (name, data) :: rest =>
      match get_export_path root name with
      | Except.error _ => (Except.error ExportError.invalidComponent, fs)
      | Except.ok target =>
          if pathExists fs target then (Except.error (ExportError.conflict target), fs)
          else exportCollection rest root (fs ++ [FsFile.mk target data])

/-- Trace of observable actions of the size-negotiation retry loop. -/
inductive RetryEvent
  | attempt (n : Nat)
  | sleep (ms : Nat)
  | reconnect
deriving DecidableEq

/-- The retry loop of `get_sizes_with_retries` (src/src/core/receive.rs
lines 310-334): `for attempt in 1..=3`, run the remote size request;
on success stop; on failure remember the error and, when further
attempts remain, sleep `250ms * attempt` and attempt a fresh connect
before retrying.  `outcome n` is the result of the size request on
attempt `n`; the trace records attempts, sleeps and reconnect attempts
in order. -/
def sizesRetryLoop (outcome : Nat → Except Str (List Nat)) :
    Nat → Nat → Except Str (List Nat) × List RetryEvent
  | attempt, left =>
      match outcome attempt with
      | Except.ok s => (Except.ok s, [RetryEvent.attempt attempt])
      | Except.error e =>
          match left with
          | 0 => (Except.error e, [RetryEvent.attempt attempt])
          | left' + 1 =>
              let next := sizesRetryLoop outcome (attempt + 1) left'
              (next.1,
                RetryEvent.attempt attempt :: RetryEvent.sleep (250 * attempt) ::
                  RetryEvent.reconnect :: next.2)

/-- Entry point of `get_sizes_with_retries` (src/src/core/receive.rs
lines 299-348): the loop runs attempts numbered 1, 2, 3 (`left` counts
the attempts still allowed after the current one, so `attempt < 3` in
the source is `left > 0` here); after the loop the first successful
sizes are returned, otherwise the last error is surfaced. -/
def get_sizes_with_retries (outcome : Nat → Except Str (List Nat)) :
    Except Str (List Nat) × List RetryEvent :=
  sizesRetryLoop outcome 1 2

/-- Outcome of the `select!` race in `download` (src/src/core/receive.rs
lines 140-154): either the body future resolves (with a result or an
error) or the ctrl-c signal wins. -/
inductive RaceOutcome (α : Type)
  | body (result : Except Str α)
  | ctrlC

/-- Cleanup actions observed at the end of a receive session. -/
structure CleanupState where
  dbShutdown : Bool
  tempDirRemoved : Bool
deriving DecidableEq

/-- Whether the race outcome is a successful body result. -/
def isSuccessOutcome {α : Type} : RaceOutcome α → Bool
  | RaceOutcome.body (Except.ok _) => true
  | RaceOutcome.body (Except.error _) => false
  | RaceOutcome.ctrlC => false

/-- The tail of `download` (src/src/core/receive.rs lines 140-161):
on a body error, shut the store down and bail with `error: {e}`;
on ctrl-c, shut the store down and bail with `Operation cancelled`;
on success, remove the session's temporary working directory and return
the result.  Both bail paths produce plain `anyhow` string errors of
the same type. -/
def downloadFinalize {α : Type} (outcome : RaceOutcome α) : Except Str α × CleanupState :=
  match outcome with
  | RaceOutcome.body (Except.ok x) => (Except.ok x, CleanupState.mk false true)
  | RaceOutcome.body (Except.error e) =>
      (Except.error (mkStr "error: " ++ e), CleanupState.mk true false)
  | RaceOutcome.ctrlC => (Except.error (mkStr "Operation cancelled"), CleanupState.mk true false)

/-- Payload size as computed by the library receive path `download`
(src/src/core/receive.rs line 66): `sizes.iter().skip(1).copied().sum()`. -/
def downloadPayloadSize (sizes : List Nat) : Nat := (sizes.drop 1).sum

/-- File count as computed by `download` (src/src/core/receive.rs
line 67): `sizes.len().saturating_sub(1)`. -/
def downloadTotalFiles (sizes : List Nat) : Nat := sizes.length - 1

/-- Payload size as computed by the CLI receive path `receive`
(src/src/common.rs line 835): `sizes.iter().skip(2).copied().sum()`. -/
def cliPayloadSize (sizes : List Nat) : Nat := (sizes.drop 2).sum

/-- The specification's payload formula, stated from the spec's words:
the sum of all per-entry sizes excluding only the first size entry.
Used to compare the two receive paths against the spec. -/
def specPayloadExcludingFirst : List Nat → Nat
  | [] => 0
  | _ :: rest => rest.sum

/-- A transport reachability hint (iroh `TransportAddr`): a relay-kind
entry or a direct-IP-kind entry, payloads opaque. -/
inductive TransportAddr (R I : Type)
  | relay (url : R)
  | ip (addr : I)

/-- Whether a hint is relay-kind (`matches!(addr, TransportAddr::Relay(_))`). -/
def isRelayAddr {R I : Type} : TransportAddr R I → Bool
  | TransportAddr.relay _ => true
  | TransportAddr.ip _ => false

/-- Whether a hint is IP-kind (`matches!(addr, TransportAddr::Ip(_))`). -/
def isIpAddr {R I : Type} : TransportAddr R I → Bool
  | TransportAddr.ip _ => true
  | TransportAddr.relay _ => false

/-- A local endpoint address: endpoint identity plus the set of
disclosed reachability hints (iroh `EndpointAddr`). -/
structure EndpointAddr (R I : Type) where
  id : Nat
  addrs : List (TransportAddr R I)

/-- The four address visibility policies (src/src/core/types.rs lines
210-216). -/
inductive AddrInfoOptions
  | id
  | relayAndAddresses
  | relay
  | addresses
deriving DecidableEq

/-- Ticket address filtering `apply_options` (src/src/core/common.rs
lines 4-29, identical copy in src/src/core/types.rs lines 218-243):
`Id` clears the address set, `RelayAndAddresses` leaves it unchanged,
`Relay` retains the relay-kind entries, `Addresses` retains the
IP-kind entries. -/
def apply_options {R I : Type} (addr : EndpointAddr R I) (opts : AddrInfoOptions) :
    EndpointAddr R I :=
  match opts with
  | AddrInfoOptions.id => { addr with addrs := [] }
  | AddrInfoOptions.relayAndAddresses => addr
  | AddrInfoOptions.relay =>
      { addr with addrs := addr.addrs.filter (fun a => match a with
          | TransportAddr.relay _ => true
          | _ => false) }
  | AddrInfoOptions.addresses =>
      { addr with addrs := addr.addrs.filter (fun a => match a with
          | TransportAddr.ip _ => true
          | _ => false) }

/-- Items of the retrieval stream (iroh-blobs `GetProgressItem`), with
the transfer statistics payload abstracted to a number. -/
inductive GetProgressItem
  | progress (offset : Nat)
  | done (stats : Nat)
  | error (msg : Str)

/-- A Progress event as emitted on the event bus by the retrieval loop
(speed omitted: it depends on wall-clock time and never affects
control flow). -/
structure ProgressEvent where
  processed : Nat
  total : Nat
deriving DecidableEq

/-- Wrapping subtraction of 64-bit unsigned integers, the release-mode
semantics of `offset - last_log_offset` on `u64`. -/
def wrappingSub64 (a b : Nat) : Nat := (a + (2 ^ 64 - b % 2 ^ 64)) % 2 ^ 64

/-- The loop body of `process_get_stream` (src/src/core/receive.rs lines
359-411): starting from `last_log_offset`, a `Progress(offset)` item
emits a Progress event iff `offset - last_log_offset > 1_000_000` and
then updates `last_log_offset`; a `Done(stats)` item emits one final
Progress event with `processed = total = payload_size` and stops; an
`Error` item aborts; an exhausted stream returns the default
statistics.  Returns the statistics and the emitted events. -/
def processGetStreamAux (payloadSize lastLogOffset : Nat) :
    List GetProgressItem → Except Str (Nat × List ProgressEvent)
  | [] => Except.ok (0, [])
  | GetProgressItem.progress offset :: rest =>
      if wrappingSub64 offset lastLogOffset > 1000000 then
        match processGetStreamAux payloadSize offset rest with
        | Except.ok (stats, events) =>
            Except.ok (stats, ProgressEvent.mk offset payloadSize :: events)
        | Except.error e => Except.error e
      else processGetStreamAux payloadSize lastLogOffset rest
  | GetProgressItem.done stats :: _ =>
      Except.ok (stats, [ProgressEvent.mk payloadSize payloadSize])
  | GetProgressItem.error e :: _ => Except.error e

/-- Entry point of `process_get_stream` (src/src/core/receive.rs lines
351-411): `last_log_offset` starts at 0. -/
def process_get_stream (payloadSize : Nat) (items : List GetProgressItem) :
    Except Str (Nat × List ProgressEvent) :=
  processGetStreamAux payloadSize 0 items

/-- The Progress events a run of the retrieval loop emits for a list of
progress offsets, starting from a given `last_log_offset` (derived
projection of `processGetStreamAux`, used to state its properties). -/
def emittedEvents (payloadSize lastLogOffset : Nat) : List Nat → List ProgressEvent
  | [] => []
  | offset :: rest =>
      if wrappingSub64 offset lastLogOffset > 1000000 then
        ProgressEvent.mk offset payloadSize :: emittedEvents payloadSize offset rest
      else emittedEvents payloadSize lastLogOffset rest

/-- The result record of a receive session (src/src/core/types.rs lines
159-162). -/
structure ReceiveResultM where
  message : Str
  file_path : FsPath
deriving DecidableEq

/-- The result message `format!("Downloaded {} files, {} bytes", ..)`
(src/src/core/receive.rs line 159). -/
def downloadMessage (totalFiles payloadSize : Nat) : Str :=
  mkStr "Downloaded " ++ Nat.toDigits 10 totalFiles ++ mkStr " files, " ++
    Nat.toDigits 10 payloadSize ++ mkStr " bytes"

/-- Output directory resolution of `download` (src/src/core/receive.rs
lines 124-126): the explicit option, else the platform download
directory, else the current working directory. -/
def resolveOutputDir (outputDir downloadDir : Option FsPath) (cwd : FsPath) : FsPath :=
  outputDir.getD (downloadDir.getD cwd)

/-- The export-and-result tail of `download` (src/src/core/receive.rs
lines 124-161): resolve the output directory, export the collection
rooted there, and on success return a `ReceiveResult` whose
`file_path` is the resolved directory. -/
def downloadExportPhase (outputDir downloadDir : Option FsPath) (cwd : FsPath)
    (collection : List (Str × Content)) (fs : List FsFile) (totalFiles payloadSize : Nat) :
    Except ExportError (ReceiveResultM × List FsFile) :=
  let out := resolveOutputDir outputDir downloadDir cwd
  match exportCollection collection out fs with
  | (Except.ok _, fs2) =>
      Except.ok (ReceiveResultM.mk (downloadMessage totalFiles payloadSize) out, fs2)
  | (Except.error e, _) => Except.error e

/-- Sample directory tree used as a concrete instance: two files under
one directory, walked in non-sorted order. -/
def sampleTree : List FsFile :=
  [FsFile.mk [mkStr "d", mkStr "b"] [1, 2], FsFile.mk [mkStr "d", mkStr "a"] [3]]

/-- Sample worker-completion order for `sampleTree`: the second walked
file finishes first. -/
def sampleCompleted : List (Str × Content) :=
  [(mkStr "d/a", [3]), (mkStr "d/b", [1, 2])]

/-- C1: the receive-side name-to-path mapping does not reject the same
inputs as the send-side path-to-name mapping.  The collection name
`../secret` passes `get_export_path` unchanged (its target escapes the
output root through the `..` segment), while the send side rejects the
corresponding path; likewise the raw traversal segments `..` and `.`
and a backslash component pass `validate_path_component` although
`canonicalized_path_to_string` rejects them. -/
theorem receive_path_validation_accepts_traversal :
    get_export_path [mkStr "out"] (mkStr "../secret")
        = Except.ok [mkStr "out", mkStr "..", mkStr "secret"]
  ∧ canonicalized_path_to_string
        [PathComponent.parentDir, PathComponent.normal (mkStr "secret")] true
        = Except.error PathError.invalidComponent
  ∧ validate_path_component (mkStr "..") = Except.ok ()
  ∧ validate_path_component (mkStr ".") = Except.ok ()
  ∧ validate_path_component (mkStr "a\\b") = Except.ok ()
  ∧ canonicalized_path_to_string [PathComponent.normal (mkStr "a\\b")] true
        = Except.error PathError.invalidComponent := by
  decide

/-- C3 counterexample: a fatal error of the download body does not
trigger removal of the session's temporary working directory before
the error is returned. -/
theorem download_fatal_error_leaves_temp_dir :
    (downloadFinalize (RaceOutcome.body (Except.error (mkStr "connection reset"))
        : RaceOutcome Nat)).2.tempDirRemoved = false := by
  decide

/-- C3 amended: the temporary working directory is removed exactly when
the session succeeds; on a fatal error (and on cancellation) only the
storage engine is shut down and the directory is left in place. -/
theorem downloadFinalize_cleanup {α : Type} (o : RaceOutcome α) :
    (downloadFinalize o).2.tempDirRemoved = isSuccessOutcome o
  ∧ (downloadFinalize o).2.dbShutdown = !isSuccessOutcome o := by
  cases o with
  | body r => cases r <;> simp [downloadFinalize, isSuccessOutcome]
  | ctrlC => simp [downloadFinalize, isSuccessOutcome]

/-- C4 counterexample: a session cancelled by the ctrl-c signal does not
remove its temporary working directory. -/
theorem download_cancel_leaves_temp_dir :
    (downloadFinalize (RaceOutcome.ctrlC : RaceOutcome Nat)).2.tempDirRemoved = false := by
  decide

/-- C4 amended: on cancellation the session shuts the storage engine
down, leaves the temporary working directory in place, and fails with
the fixed message `Operation cancelled` — an `anyhow` string error of
the same type as operation failures, distinguishable from the
`error: {..}`-wrapped failures only by its text. -/
theorem downloadFinalize_cancellation {α : Type} :
    downloadFinalize (RaceOutcome.ctrlC : RaceOutcome α)
        = (Except.error (mkStr "Operation cancelled"), CleanupState.mk true false)
  ∧ (∀ e : Str, mkStr "Operation cancelled" ≠ mkStr "error: " ++ e) := by
  constructor
  · rfl
  · intro e h
    have h1 : mkStr "Operation cancelled" = 'O' :: mkStr "peration cancelled" := rfl
    have h2 : mkStr "error: " ++ e = 'e' :: (mkStr "rror: " ++ e) := rfl
    rw [h1, h2] at h
    injection h with h3 h4
    exact absurd h3 (by decide)

/-- C4 witness: the cancellation conclusion instantiated at a concrete
error payload type and a concrete failure message. -/
theorem downloadFinalize_cancellation_witness :
    downloadFinalize (RaceOutcome.ctrlC : RaceOutcome Nat)
        = (Except.error (mkStr "Operation cancelled"), CleanupState.mk true false)
  ∧ mkStr "Operation cancelled" ≠ mkStr "error: " ++ mkStr "timeout" :=
  And.intro (downloadFinalize_cancellation (α := Nat)).1
    ((downloadFinalize_cancellation (α := Nat)).2 (mkStr "timeout"))

/-- C5: the size-negotiation loop makes at most 3 attempts; between
attempt `k` and attempt `k+1` it sleeps `250*k` milliseconds and then
attempts a fresh transport reconnect; the first successful attempt's
sizes are returned, and when all three attempts fail the error of the
last attempt is surfaced. -/
theorem get_sizes_with_retries_spec (outcome : Nat → Except Str (List Nat)) :
    (∀ s, outcome 1 = Except.ok s →
      get_sizes_with_retries outcome = (Except.ok s, [RetryEvent.attempt 1]))
  ∧ (∀ e1 s, outcome 1 = Except.error e1 → outcome 2 = Except.ok s →
      get_sizes_with_retries outcome
        = (Except.ok s, [RetryEvent.attempt 1, RetryEvent.sleep 250, RetryEvent.reconnect,
            RetryEvent.attempt 2]))
  ∧ (∀ e1 e2 s, outcome 1 = Except.error e1 → outcome 2 = Except.error e2 →
      outcome 3 = Except.ok s →
      get_sizes_with_retries outcome
        = (Except.ok s, [RetryEvent.attempt 1, RetryEvent.sleep 250, RetryEvent.reconnect,
            RetryEvent.attempt 2, RetryEvent.sleep 500, RetryEvent.reconnect,
            RetryEvent.attempt 3]))
  ∧ (∀ e1 e2 e3, outcome 1 = Except.error e1 → outcome 2 = Except.error e2 →
      outcome 3 = Except.error e3 →
      get_sizes_with_retries outcome
        = (Except.error e3, [RetryEvent.attempt 1, RetryEvent.sleep 250, RetryEvent.reconnect,
            RetryEvent.attempt 2, RetryEvent.sleep 500, RetryEvent.reconnect,
            RetryEvent.attempt 3])) := by
  refine ⟨?_, ?_, ?_, ?_⟩
  · intro s h1
    simp [get_sizes_with_retries, sizesRetryLoop, h1]
  · intro e1 s h1 h2
    simp [get_sizes_with_retries, sizesRetryLoop, h1, h2]
  · intro e1 e2 s h1 h2 h3
    simp [get_sizes_with_retries, sizesRetryLoop, h1, h2, h3]
  · intro e1 e2 e3 h1 h2 h3
    simp [get_sizes_with_retries, sizesRetryLoop, h1, h2, h3]

/-- C5 witness: two failed attempts followed by a success on the third
attempt yield those sizes, with the sleeps and reconnects in between. -/
theorem get_sizes_with_retries_spec_witness :
    get_sizes_with_retries
        (fun n => if n = 3 then Except.ok [5, 10] else Except.error (mkStr "reset"))
      = (Except.ok [5, 10], [RetryEvent.attempt 1, RetryEvent.sleep 250, RetryEvent.reconnect,
          RetryEvent.attempt 2, RetryEvent.sleep 500, RetryEvent.reconnect,
          RetryEvent.attempt 3]) :=
  (get_sizes_with_retries_spec
      (fun n => if n = 3 then Except.ok [5, 10] else Except.error (mkStr "reset"))).2.2.1
    (mkStr "reset") (mkStr "reset") [5, 10] rfl rfl rfl

/-- C7 counterexample: on the size list `[1, 2, 4]` the CLI receive path
reports a payload of 4, not the 6 that the sum of all per-entry sizes
excluding only the first entry would give. -/
theorem cli_payload_size_not_excluding_only_first :
    cliPayloadSize [1, 2, 4] = 4
  ∧ specPayloadExcludingFirst [1, 2, 4] = 6
  ∧ cliPayloadSize [1, 2, 4] ≠ specPayloadExcludingFirst [1, 2, 4] := by
  decide

/-- C7 amended: the library receive path `download` computes the payload
as the sum of all sizes excluding only the first entry, while the CLI
receive path computes it excluding the first two entries; the reported
file count is the number of sizes minus one in both. -/
theorem payload_size_formulas (s0 s1 : Nat) (rest : List Nat) :
    downloadPayloadSize (s0 :: rest) = rest.sum
  ∧ (∀ sizes : List Nat, downloadPayloadSize sizes = specPayloadExcludingFirst sizes)
  ∧ cliPayloadSize (s0 :: s1 :: rest) = rest.sum
  ∧ downloadTotalFiles (s0 :: rest) = rest.length := by
  refine ⟨rfl, ?_, rfl, ?_⟩
  · intro sizes
    cases sizes <;> rfl
  · simp [downloadTotalFiles]

/-- C8: applying an address visibility policy yields exactly the
policy's filter: `Id` leaves an empty address set, `RelayAndAddresses`
leaves the address unchanged, `Relay` retains exactly the relay-kind
entries and `Addresses` retains exactly the IP-kind entries. -/
theorem apply_options_matches_policy {R I : Type} (addr : EndpointAddr R I) :
    (apply_options addr AddrInfoOptions.id).addrs = []
  ∧ apply_options addr AddrInfoOptions.relayAndAddresses = addr
  ∧ (∀ a, a ∈ (apply_options addr AddrInfoOptions.relay).addrs ↔
        a ∈ addr.addrs ∧ isRelayAddr a = true)
  ∧ (∀ a, a ∈ (apply_options addr AddrInfoOptions.addresses).addrs ↔
        a ∈ addr.addrs ∧ isIpAddr a = true) := by
  refine ⟨rfl, rfl, ?_, ?_⟩ <;>
    intro a <;>
    cases a <;>
    simp [apply_options, List.mem_filter, isRelayAddr, isIpAddr]

/-- C8 witness: the policy filters evaluated on a concrete address
holding one relay-kind and one IP-kind hint. -/
theorem apply_options_matches_policy_witness :
    (apply_options (EndpointAddr.mk 0 [TransportAddr.relay 1, TransportAddr.ip 2]
        : EndpointAddr Nat Nat) AddrInfoOptions.id).addrs = []
  ∧ (TransportAddr.relay 1 ∈ (apply_options (EndpointAddr.mk 0
        [TransportAddr.relay 1, TransportAddr.ip 2] : EndpointAddr Nat Nat)
        AddrInfoOptions.relay).addrs ↔
      TransportAddr.relay 1 ∈ [TransportAddr.relay (1 : Nat), TransportAddr.ip (2 : Nat)]
        ∧ isRelayAddr (TransportAddr.relay (1 : Nat) : TransportAddr Nat Nat) = true) :=
  And.intro
    (apply_options_matches_policy
      (EndpointAddr.mk 0 [TransportAddr.relay 1, TransportAddr.ip 2])).1
    ((apply_options_matches_policy
      (EndpointAddr.mk 0 [TransportAddr.relay 1, TransportAddr.ip 2])).2.2.1
      (TransportAddr.relay 1))

/-- Helper: on a stream of progress items the retrieval loop returns the
default statistics and exactly the throttled events. -/
theorem processGetStreamAux_progress (payload : Nat) (offsets : List Nat) :
    ∀ last, processGetStreamAux payload last (offsets.map GetProgressItem.progress)
      = Except.ok (0, emittedEvents payload last offsets) := by
  induction offsets with
  | nil => intro last; rfl
  | cons o rest ih =>
      intro last
      by_cases h : wrappingSub64 o last > 1000000 <;>
        simp [processGetStreamAux, emittedEvents, h, ih]

/-- Helper: a stream of progress items followed by a `Done` item returns
the delivered statistics and the throttled events followed by exactly
one final event with `processed = total`. -/
theorem processGetStreamAux_done (payload : Nat) (offsets : List Nat) (v : Nat)
    (post : List GetProgressItem) :
    ∀ last, processGetStreamAux payload last
        (offsets.map GetProgressItem.progress ++ GetProgressItem.done v :: post)
      = Except.ok (v, emittedEvents payload last offsets
          ++ [ProgressEvent.mk payload payload]) := by
  induction offsets with
  | nil => intro last; simp [processGetStreamAux, emittedEvents]
  | cons o rest ih =>
      intro last
      by_cases h : wrappingSub64 o last > 1000000 <;>
        simp [processGetStreamAux, emittedEvents, h, ih]

/-- Helper: successive reported offsets always differ by more than the
1,000,000-byte threshold, starting from the last reported offset. -/
theorem emittedEvents_chain (payload : Nat) (offsets : List Nat) :
    ∀ last, List.Chain' (fun a b => wrappingSub64 b.processed a.processed > 1000000)
      (ProgressEvent.mk last payload :: emittedEvents payload last offsets) := by
  induction offsets with
  | nil => intro last; simp [emittedEvents]
  | cons o rest ih =>
      intro last
      by_cases h : wrappingSub64 o last > 1000000
      · simp only [emittedEvents, h, if_pos]
        rw [List.chain'_cons]
        exact And.intro h (ih o)
      · simp only [emittedEvents, h, if_neg, not_false_iff]
        exact ih last

/-- Helper: every throttled event reports the payload size as total. -/
theorem emittedEvents_total (payload : Nat) (offsets : List Nat) :
    ∀ last, ∀ e ∈ emittedEvents payload last offsets, e.total = payload := by
  induction offsets with
  | nil => intro last e he; cases he
  | cons o rest ih =>
      intro last e he
      by_cases h : wrappingSub64 o last > 1000000
      · rw [emittedEvents, if_pos h] at he
        cases he with
        | head => rfl
        | tail _ hm => exact ih o e hm
      · rw [emittedEvents, if_neg h] at he
        exact ih last e he

/-- C9 counterexample: during retrieval a Progress event is raised at
offset 1,000,001 from a last reported offset of 0, although the
outstanding unreported progress does not exceed 1 MiB (1,048,576
bytes): the code's threshold is 1,000,000 bytes. -/
theorem progress_event_below_one_mib :
    process_get_stream 5000000 [GetProgressItem.progress 1000001]
        = Except.ok (0, [ProgressEvent.mk 1000001 5000000])
  ∧ ¬ 1000001 > 1024 * 1024 := by
  constructor
  · decide
  · decide

/-- C9 amended: while driving the retrieval stream a new Progress event
is raised only when the outstanding unreported progress exceeds
1,000,000 bytes (successive reported offsets, starting from 0, differ
by more than 1,000,000), every such event carries the payload size as
total, and on completion (a `Done` stream item) exactly one final
Progress event with `processed = total` is emitted. -/
theorem process_get_stream_throttling (payload : Nat) (offsets : List Nat) (v : Nat)
    (post : List GetProgressItem) :
    process_get_stream payload (offsets.map GetProgressItem.progress)
        = Except.ok (0, emittedEvents payload 0 offsets)
  ∧ process_get_stream payload
        (offsets.map GetProgressItem.progress ++ GetProgressItem.done v :: post)
        = Except.ok (v, emittedEvents payload 0 offsets ++ [ProgressEvent.mk payload payload])
  ∧ List.Chain' (fun a b => wrappingSub64 b.processed a.processed > 1000000)
        (ProgressEvent.mk 0 payload :: emittedEvents payload 0 offsets)
  ∧ (∀ e ∈ emittedEvents payload 0 offsets, e.total = payload) :=
  And.intro (processGetStreamAux_progress payload offsets 0)
    (And.intro (processGetStreamAux_done payload offsets v post 0)
      (And.intro (emittedEvents_chain payload offsets 0)
        (emittedEvents_total payload offsets 0)))

/-- C9 witness: the completion conclusion instantiated on a concrete
stream with three progress offsets, of which the second is throttled
away. -/
theorem process_get_stream_throttling_witness :
    process_get_stream 5000000
        ([2000000, 2500000, 4000000].map GetProgressItem.progress
          ++ GetProgressItem.done 9 :: [])
      = Except.ok (9, emittedEvents 5000000 0 [2000000, 2500000, 4000000]
          ++ [ProgressEvent.mk 5000000 5000000]) :=
  (process_get_stream_throttling 5000000 [2000000, 2500000, 4000000] 9 []).2.1

/-- C10: when no output directory is given, `download` resolves the
export root to the platform download directory, falling back to the
current working directory when there is none, exports rooted there,
and returns a `ReceiveResult` whose `file_path` is exactly the
resolved directory. -/
theorem download_default_output_dir (dd : Option FsPath) (cwd : FsPath)
    (col : List (Str × Content)) (fs fs2 : List FsFile) (n p : Nat)
    (hexp : exportCollection col (dd.getD cwd) fs = (Except.ok (), fs2)) :
    resolveOutputDir none dd cwd = dd.getD cwd
  ∧ (dd = none → resolveOutputDir none dd cwd = cwd)
  ∧ downloadExportPhase none dd cwd col fs n p
      = Except.ok (ReceiveResultM.mk (downloadMessage n p) (dd.getD cwd), fs2) := by
  refine ⟨rfl, ?_, ?_⟩
  · intro h
    rw [h]
    rfl
  · simp [downloadExportPhase, resolveOutputDir, hexp]

/-- C10 witness: with no output option, a present download directory and
a one-entry collection, the receive result's file path is the download
directory. -/
theorem download_default_output_dir_witness :
    downloadExportPhase none (some [mkStr "dl"]) [mkStr "cwd"] [(mkStr "a", [7])] [] 1 100
      = Except.ok (ReceiveResultM.mk (downloadMessage 1 100) [mkStr "dl"],
          [FsFile.mk [mkStr "dl", mkStr "a"] [7]]) :=
  (download_default_output_dir (some [mkStr "dl"]) [mkStr "cwd"] [(mkStr "a", [7])]
      [] [FsFile.mk [mkStr "dl", mkStr "a"] [7]] 1 100 (by decide)).2.2

/-- Helper: a character with a false containment test is not a member. -/
theorem not_mem_of_contains_eq_false {c : Str} {a : Char} (h : c.contains a = false) :
    a ∉ c := by
  intro hm
  have h2 : List.elem a c = true := List.elem_iff.mpr hm
  rw [List.contains, h2] at h
  exact Bool.noConfusion h

/-- Helper: collecting the components of a valid relative path succeeds
and returns the components unchanged. -/
theorem collectParts_valid (p : FsPath)
    (h : ∀ c ∈ p, c.contains '/' = false ∧ c.contains '\\' = false) :
    collectParts true (p.map PathComponent.normal) = Except.ok (false, p) := by
  induction p with
  | nil => rfl
  | cons c rest ih =>
      have hc := h c (by simp)
      have hc1 : '/' ∉ c := not_mem_of_contains_eq_false hc.1
      have hc2 : '\\' ∉ c := not_mem_of_contains_eq_false hc.2
      have hrest := ih (fun x hx => h x (by simp [hx]))
      simp [collectParts, hc1, hc2, hrest]

/-- Helper: the sender-side name of a valid relative path is its
components joined with the separator. -/
theorem canonicalized_valid (p : FsPath)
    (h : ∀ c ∈ p, c.contains '/' = false ∧ c.contains '\\' = false) :
    canonicalized_path_to_string (p.map PathComponent.normal) true
      = Except.ok (joinName p) := by
  simp [canonicalized_path_to_string, collectParts_valid p h, joinName]

/-- Helper: importing a tree of valid files yields exactly the pairs of
joined names and contents, in walk order. -/
theorem importDataSources_valid (T : List FsFile)
    (h : ∀ f ∈ T, ∀ c ∈ f.path, c.contains '/' = false ∧ c.contains '\\' = false) :
    importDataSources T = Except.ok (T.map fun f => (joinName f.path, f.data)) := by
  induction T with
  | nil => rfl
  | cons f rest ih =>
      have hf := canonicalized_valid f.path (h f (by simp))
      have hrest := ih (fun g hg => h g (by simp [hg]))
      simp [importDataSources, hf, hrest]

/-- Helper: splitting a joined name on the separator recovers the
components, provided the path is nonempty and separator-free. -/
theorem splitOn_joinName (p : FsPath) (hne : p ≠ [])
    (h : ∀ c ∈ p, c.contains '/' = false) :
    List.splitOn '/' (joinName p) = p := by
  have hx : ∀ c ∈ p, '/' ∉ c := fun c hc => not_mem_of_contains_eq_false (h c hc)
  simpa [joinName] using List.splitOn_intercalate p '/' hx hne

/-- Helper: pushing separator-free parts onto a path succeeds and
appends them. -/
theorem pushParts_valid (parts : List Str) (h : ∀ c ∈ parts, c.contains '/' = false) :
    ∀ acc, pushParts acc parts = Except.ok (acc ++ parts) := by
  induction parts with
  | nil => intro acc; simp [pushParts]
  | cons c rest ih =>
      intro acc
      have hc : '/' ∉ c := not_mem_of_contains_eq_false (h c (by simp))
      have hrest := ih (fun x hx => h x (by simp [hx])) (acc ++ [c])
      simp [pushParts, validate_path_component, hc, hrest]

/-- Helper: the receiver-side export path of a joined valid name is the
root extended by the original components. -/
theorem get_export_path_joinName (root : FsPath) (p : FsPath) (hne : p ≠ [])
    (h : ∀ c ∈ p, c.contains '/' = false) :
    get_export_path root (joinName p) = Except.ok (root ++ p) := by
  rw [get_export_path, splitOn_joinName p hne h]
  exact pushParts_valid p h root

/-- Helper: the built collection is sorted by name. -/
theorem buildCollection_sorted (l : List (Str × Content)) :
    (buildCollection l).Pairwise nameLe :=
  List.sorted_insertionSort nameLe l

/-- Helper: the built collection is a permutation of the completed
results of the import workers. -/
theorem buildCollection_perm (l : List (Str × Content)) :
    (buildCollection l).Perm l :=
  List.perm_insertionSort nameLe l

/-- Helper: when the entry names are pairwise distinct, sorting is
independent of the completion order of the import workers. -/
theorem buildCollection_eq_of_perm (l1 l2 : List (Str × Content)) (hperm : l1.Perm l2)
    (hnd : l2.Pairwise fun a b => a.1 ≠ b.1) :
    buildCollection l1 = buildCollection l2 := by
  have hsymm : ∀ {x y : Str × Content}, x.1 ≠ y.1 → y.1 ≠ x.1 := fun h => Ne.symm h
  have p1 : (buildCollection l1).Perm (buildCollection l2) :=
    (buildCollection_perm l1).trans (hperm.trans (buildCollection_perm l2).symm)
  have nd2 : (buildCollection l2).Pairwise (fun a b => a.1 ≠ b.1) :=
    (List.Perm.pairwise_iff hsymm (buildCollection_perm l2)).mpr hnd
  have nd1 : (buildCollection l1).Pairwise (fun a b => a.1 ≠ b.1) :=
    (List.Perm.pairwise_iff hsymm p1).mpr nd2
  have lt1 : (buildCollection l1).Pairwise (fun a b => a.1 < b.1) :=
    ((buildCollection_sorted l1).and nd1).imp (fun h => lt_of_le_of_ne h.1 h.2)
  have lt2 : (buildCollection l2).Pairwise (fun a b => a.1 < b.1) :=
    ((buildCollection_sorted l2).and nd2).imp (fun h => lt_of_le_of_ne h.1 h.2)
  haveI : IsAntisymm (Str × Content) (fun a b => a.1 < b.1) :=
    IsAntisymm.mk (fun _ _ h1 h2 => absurd h1 (lt_asymm h2))
  exact List.eq_of_perm_of_sorted p1 lt1 lt2

/-- Helper: a path exists in a split filesystem iff it exists in one of
the halves. -/
theorem pathExists_append (fs1 fs2 : List FsFile) (t : FsPath) :
    pathExists (fs1 ++ fs2) t = (pathExists fs1 t || pathExists fs2 t) := by
  simp [pathExists, List.any_append]

/-- Helper: exporting entries whose targets are valid, absent from the
filesystem and pairwise conflict-free writes exactly one file per entry,
in collection order. -/
theorem exportCollection_ok (col : List (Str × Content)) (root : FsPath) :
    ∀ fs : List FsFile,
    (∀ e ∈ col, get_export_path root e.1 = Except.ok (root ++ List.splitOn '/' e.1)) →
    (∀ e ∈ col, pathExists fs (root ++ List.splitOn '/' e.1) = false) →
    col.Pairwise (fun a b =>
        ¬ (root ++ List.splitOn '/' a.1) <+: (root ++ List.splitOn '/' b.1)
      ∧ ¬ (root ++ List.splitOn '/' b.1) <+: (root ++ List.splitOn '/' a.1)) →
    exportCollection col root fs
      = (Except.ok (),
          fs ++ col.map fun e => FsFile.mk (root ++ List.splitOn '/' e.1) e.2) := by
  induction col with
  | nil => intro fs _ _ _; simp [exportCollection]
  | cons e rest ih =>
      intro fs htgt hfs hpw
      obtain ⟨nm, d⟩ := e
      have h1 : get_export_path root nm = Except.ok (root ++ List.splitOn '/' nm) :=
        htgt (nm, d) (by simp)
      have h2 : pathExists fs (root ++ List.splitOn '/' nm) = false := hfs (nm, d) (by simp)
      rw [List.pairwise_cons] at hpw
      obtain ⟨hhead, htail⟩ := hpw
      have hfs2 : ∀ x ∈ rest,
          pathExists (fs ++ [FsFile.mk (root ++ List.splitOn '/' nm) d])
            (root ++ List.splitOn '/' x.1) = false := by
        intro x hx
        have hrel := hhead x hx
        have hxfs := hfs x (by simp [hx])
        have hne2 : (root ++ List.splitOn '/' nm) ≠ (root ++ List.splitOn '/' x.1) := by
          intro hq
          exact hrel.1 (hq ▸ List.prefix_refl _)
        have hone : pathExists [FsFile.mk (root ++ List.splitOn '/' nm) d]
            (root ++ List.splitOn '/' x.1) = false := by
          simp [pathExists, hne2, hrel.2]
        rw [pathExists_append, hxfs, hone]
        rfl
      have hrec := ih (fs ++ [FsFile.mk (root ++ List.splitOn '/' nm) d])
        (fun x hx => htgt x (by simp [hx])) hfs2 htail
      simp [exportCollection, h1, h2, hrec, List.append_assoc]

/-- Helper: a successfully exported first segment lets the export loop
continue on the remaining entries from the grown filesystem. -/
theorem exportCollection_append_ok (xs ys : List (Str × Content)) (root : FsPath) :
    ∀ fs fs2 : List FsFile, exportCollection xs root fs = (Except.ok (), fs2) →
    exportCollection (xs ++ ys) root fs = exportCollection ys root fs2 := by
  induction xs with
  | nil =>
      intro fs fs2 h
      simp [exportCollection] at h
      rw [List.nil_append, h]
  | cons e rest ih =>
      intro fs fs2 h
      obtain ⟨nm, d⟩ := e
      cases hg : get_export_path root nm with
      | error e2 =>
          simp [exportCollection, hg] at h
      | ok target =>
          by_cases hex : pathExists fs target = true
          · simp [exportCollection, hg, hex] at h
          · rw [List.cons_append]
            simp only [exportCollection, hg, hex, if_false, Bool.false_eq_true,
              if_neg (fun hq => hex hq)] at h ⊢
            exact ih (fs ++ [FsFile.mk target d]) fs2 h

/-- Helper: the export loop only ever appends files, so the initial
filesystem state survives as a prefix of the final one. -/
theorem exportCollection_fs_grows (col : List (Str × Content)) (root : FsPath) :
    ∀ fs, fs <+: (exportCollection col root fs).2 := by
  induction col with
  | nil => intro fs; simp [exportCollection]
  | cons e rest ih =>
      intro fs
      obtain ⟨nm, d⟩ := e
      cases hg : get_export_path root nm with
      | error e2 => simp [exportCollection, hg]
      | ok target =>
          by_cases hex : pathExists fs target = true
          · simp [exportCollection, hg, hex]
          · have h2 := ih (fs ++ [FsFile.mk target d])
            have h1 : fs <+: fs ++ [FsFile.mk target d] := List.prefix_append _ _
            simp only [exportCollection, hg, hex, Bool.false_eq_true, if_false,
              if_neg (fun hq => hex hq)]
            exact h1.trans h2

/-- C2: for every directory tree (nonempty, separator-free component
paths, no file inside another file's path), importing the tree
validates every name, the collection built from the worker results is
sorted lexicographically by name and is the same for every completion
order, and exporting it into an empty output directory succeeds and
reproduces the tree byte-for-byte (same component paths under the
output root, same contents, as a permutation — a filesystem is
unordered). -/
theorem import_export_roundtrip
    (T : List FsFile) (root : FsPath) (completed : List (Str × Content))
    (hne : ∀ f ∈ T, f.path ≠ [])
    (hval : ∀ f ∈ T, ∀ c ∈ f.path, c.contains '/' = false ∧ c.contains '\\' = false)
    (hsep : T.Pairwise fun a b => ¬ a.path <+: b.path ∧ ¬ b.path <+: a.path)
    (hperm : completed.Perm (T.map fun f => (joinName f.path, f.data))) :
    importDataSources T = Except.ok (T.map fun f => (joinName f.path, f.data))
  ∧ buildCollection completed = buildCollection (T.map fun f => (joinName f.path, f.data))
  ∧ (buildCollection completed).Pairwise nameLe
  ∧ exportCollection (buildCollection completed) root []
      = (Except.ok (),
          (buildCollection completed).map fun e =>
            FsFile.mk (root ++ List.splitOn '/' e.1) e.2)
  ∧ ((buildCollection completed).map fun e =>
        FsFile.mk (root ++ List.splitOn '/' e.1) e.2).Perm
      (T.map fun f => FsFile.mk (root ++ f.path) f.data) := by
  have hsplit : ∀ f ∈ T, List.splitOn '/' (joinName f.path) = f.path := fun f hf =>
    splitOn_joinName f.path (hne f hf) (fun c hc => (hval f hf c hc).1)
  have colperm : (buildCollection completed).Perm
      (T.map fun f => (joinName f.path, f.data)) :=
    (buildCollection_perm completed).trans hperm
  have memds : ∀ e ∈ buildCollection completed,
      e ∈ T.map fun f => (joinName f.path, f.data) := fun e he => colperm.mem_iff.mp he
  have hndds : (T.map fun f => (joinName f.path, f.data)).Pairwise
      (fun a b => a.1 ≠ b.1) := by
    rw [List.pairwise_map]
    refine List.Pairwise.imp_of_mem ?_ hsep
    intro a b ha hb hab hEq
    apply hab.1
    have hEq2 : joinName a.path = joinName b.path := hEq
    have hpq : a.path = b.path := by
      rw [← hsplit a ha, hEq2, hsplit b hb]
    rw [hpq]
  have htgt : ∀ e ∈ buildCollection completed,
      get_export_path root e.1 = Except.ok (root ++ List.splitOn '/' e.1) := by
    intro e he
    obtain ⟨f, hf, rfl⟩ := List.mem_map.mp (memds e he)
    show get_export_path root (joinName f.path)
      = Except.ok (root ++ List.splitOn '/' (joinName f.path))
    rw [hsplit f hf]
    exact get_export_path_joinName root f.path (hne f hf)
      (fun c hc => (hval f hf c hc).1)
  have hfs : ∀ e ∈ buildCollection completed,
      pathExists [] (root ++ List.splitOn '/' e.1) = false := fun e _ => rfl
  have hpwds : (T.map fun f => (joinName f.path, f.data)).Pairwise (fun a b =>
      ¬ (root ++ List.splitOn '/' a.1) <+: (root ++ List.splitOn '/' b.1)
    ∧ ¬ (root ++ List.splitOn '/' b.1) <+: (root ++ List.splitOn '/' a.1)) := by
    rw [List.pairwise_map]
    refine List.Pairwise.imp_of_mem ?_ hsep
    intro a b ha hb hab
    constructor
    · show ¬ (root ++ List.splitOn '/' (joinName a.path))
        <+: (root ++ List.splitOn '/' (joinName b.path))
      rw [hsplit a ha, hsplit b hb]
      intro hq
      exact hab.1 ((List.prefix_append_right_inj root).mp hq)
    · show ¬ (root ++ List.splitOn '/' (joinName b.path))
        <+: (root ++ List.splitOn '/' (joinName a.path))
      rw [hsplit a ha, hsplit b hb]
      intro hq
      exact hab.2 ((List.prefix_append_right_inj root).mp hq)
  have hpwsymm : ∀ {x y : Str × Content},
      (¬ (root ++ List.splitOn '/' x.1) <+: (root ++ List.splitOn '/' y.1)
        ∧ ¬ (root ++ List.splitOn '/' y.1) <+: (root ++ List.splitOn '/' x.1)) →
      (¬ (root ++ List.splitOn '/' y.1) <+: (root ++ List.splitOn '/' x.1)
        ∧ ¬ (root ++ List.splitOn '/' x.1) <+: (root ++ List.splitOn '/' y.1)) :=
    fun h => And.intro h.2 h.1
  have hpw : (buildCollection completed).Pairwise (fun a b =>
      ¬ (root ++ List.splitOn '/' a.1) <+: (root ++ List.splitOn '/' b.1)
    ∧ ¬ (root ++ List.splitOn '/' b.1) <+: (root ++ List.splitOn '/' a.1)) :=
    (List.Perm.pairwise_iff hpwsymm colperm).mpr hpwds
  have hexp := exportCollection_ok (buildCollection completed) root [] htgt hfs hpw
  have hmapeq : (T.map fun f => (joinName f.path, f.data)).map
        (fun e => FsFile.mk (root ++ List.splitOn '/' e.1) e.2)
      = T.map fun f => FsFile.mk (root ++ f.path) f.data := by
    rw [List.map_map]
    refine List.map_congr_left ?_
    intro f hf
    simp [Function.comp, hsplit f hf]
  refine ⟨importDataSources_valid T hval, ?_, buildCollection_sorted completed, ?_, ?_⟩
  · exact buildCollection_eq_of_perm completed _ hperm hndds
  · rw [hexp, List.nil_append]
  · have hp := colperm.map (fun e => FsFile.mk (root ++ List.splitOn '/' e.1) e.2)
    rw [hmapeq] at hp
    exact hp

/-- C2 witness: the round trip on a concrete two-file tree with the
workers finishing in reverse walk order. -/
theorem import_export_roundtrip_witness :
    importDataSources sampleTree
        = Except.ok (sampleTree.map fun f => (joinName f.path, f.data))
  ∧ buildCollection sampleCompleted
        = buildCollection (sampleTree.map fun f => (joinName f.path, f.data))
  ∧ (buildCollection sampleCompleted).Pairwise nameLe
  ∧ exportCollection (buildCollection sampleCompleted) [mkStr "o"] []
      = (Except.ok (),
          (buildCollection sampleCompleted).map fun e =>
            FsFile.mk ([mkStr "o"] ++ List.splitOn '/' e.1) e.2)
  ∧ ((buildCollection sampleCompleted).map fun e =>
        FsFile.mk ([mkStr "o"] ++ List.splitOn '/' e.1) e.2).Perm
      (sampleTree.map fun f => FsFile.mk ([mkStr "o"] ++ f.path) f.data) :=
  import_export_roundtrip sampleTree [mkStr "o"] sampleCompleted (by decide) (by decide)
    (by decide) (by decide)

/-- C6: when the entries before some entry export cleanly and that
entry's target path already exists, the export loop fails with a
conflict error naming the target, the filesystem stays exactly as it
was before the conflicting entry (no later entry is exported), and
every pre-existing file survives unchanged. -/
theorem export_conflict_stops (pre : List (Str × Content)) (nm : Str) (d : Content)
    (post : List (Str × Content)) (root : FsPath) (fs0 fsMid : List FsFile)
    (target : FsPath)
    (hpre : exportCollection pre root fs0 = (Except.ok (), fsMid))
    (htgt : get_export_path root nm = Except.ok target)
    (hconf : pathExists fsMid target = true) :
    exportCollection (pre ++ (nm, d) :: post) root fs0
        = (Except.error (ExportError.conflict target), fsMid)
  ∧ fs0 <+: fsMid
  ∧ (∀ f ∈ fs0, f ∈ fsMid) := by
  have h1 : exportCollection (pre ++ (nm, d) :: post) root fs0
      = exportCollection ((nm, d) :: post) root fsMid :=
    exportCollection_append_ok pre ((nm, d) :: post) root fs0 fsMid hpre
  have h2 : exportCollection ((nm, d) :: post) root fsMid
      = (Except.error (ExportError.conflict target), fsMid) := by
    simp [exportCollection, htgt, hconf]
  have h3 : fs0 <+: fsMid := by
    have hg := exportCollection_fs_grows pre root fs0
    rw [hpre] at hg
    exact hg
  exact ⟨h1.trans h2, h3, fun f hf => h3.subset hf⟩

/-- C6 witness: a concrete export in which the second entry's target is
occupied by a pre-existing file; the first entry is written, the export
stops with a conflict and the pre-existing file survives. -/
theorem export_conflict_stops_witness :
    exportCollection [(mkStr "b", [1]), (mkStr "a", [5])] [mkStr "o"]
        [FsFile.mk [mkStr "o", mkStr "a"] [9]]
      = (Except.error (ExportError.conflict [mkStr "o", mkStr "a"]),
          [FsFile.mk [mkStr "o", mkStr "a"] [9], FsFile.mk [mkStr "o", mkStr "b"] [1]])
  ∧ [FsFile.mk [mkStr "o", mkStr "a"] [9]]
      <+: [FsFile.mk [mkStr "o", mkStr "a"] [9], FsFile.mk [mkStr "o", mkStr "b"] [1]]
  ∧ (∀ f ∈ [FsFile.mk [mkStr "o", mkStr "a"] [9]],
      f ∈ [FsFile.mk [mkStr "o", mkStr "a"] [9], FsFile.mk [mkStr "o", mkStr "b"] [1]]) :=
  export_conflict_stops [(mkStr "b", [1])] (mkStr "a") [5] [] [mkStr "o"]
    [FsFile.mk [mkStr "o", mkStr "a"] [9]]
    [FsFile.mk [mkStr "o", mkStr "a"] [9], FsFile.mk [mkStr "o", mkStr "b"] [1]]
    [mkStr "o", mkStr "a"] (by decide) (by decide) (by decide)

end Sendmer
